import Mathlib

/-!
Verification development for the eth-balance-checker monitoring bot.

The engine is embedded shallowly:

- Python dictionaries (the previous-balance store, the health-flag mapping,
  labelled Prometheus counters and gauges) become association lists over
  decidable keys, with dictionary assignment modelled by `setA` and lookup by
  `getA`.
- The ledger client call `ethbalance.get_token_balance` is an external
  collaborator; its possible behaviours are the inductive `RpcResult`
  (error-shaped dict, balance dict, plain value, or a raised exception).
  `check_token_balance` (main.py) is a total function from that behaviour to
  `Except`, where `Except.error` models a propagating Python exception.
- The Telegram transport behaviour is the inductive `TelegramResponse`;
  `send_notification` (main.py) maps it to the boolean the Python function
  returns.
- `main_check` (main.py) runs one monitoring cycle over the configured
  (address, coin) sweep; it threads the balance store and a `Metrics` record
  mirroring the metric families of prometheus_metrics.py that the cycle
  updates, and collects the Notification Port invocations it performs.
  Balances are modelled as integers and durations as opaque numbers: no
  verified property depends on their arithmetic. Logging, the health-flag
  writes performed inside the fetch and notification helpers, and the
  rpc/telegram metric families recorded there are observability side effects
  outside the stated properties and are not threaded through the cycle.
- `healthcheck` (healthcheck.py) renders the health endpoint response from an
  arbitrary state of the flag mapping.
-/

/-- Association list update, modelling Python dictionary assignment: the first
binding of the key is replaced in place, a missing key is appended. -/
def setA {α β : Type} [DecidableEq α] : List (α × β) → α → β → List (α × β)
  | [], k, v => [(k, v)]
  | (k', v') :: rest, k, v =>
    if k = k' then (k, v) :: rest else (k', v') :: setA rest k v

/-- Association list lookup, modelling Python `dict.get`. -/
def getA {α β : Type} [DecidableEq α] : List (α × β) → α → Option β
  | [], _ => none
  | (k', v') :: rest, k => if k = k' then some v' else getA rest k

/-- Counter read: a missing label set reads as 0, as for a Prometheus counter. -/
def lookA {α : Type} [DecidableEq α] (l : List (α × Nat)) (k : α) : Nat :=
  (getA l k).getD 0

/-- Counter increment for one label set. -/
def bumpA {α : Type} [DecidableEq α] (l : List (α × Nat)) (k : α) : List (α × Nat) :=
  setA l k (lookA l k + 1)

theorem getA_setA_self {α β : Type} [DecidableEq α] (l : List (α × β)) (k : α) (v : β) :
    getA (setA l k v) k = some v := by
  induction l with
  | nil => simp [setA, getA]
  | cons kv rest ih =>
    obtain ⟨k', v'⟩ := kv
    by_cases h : k = k'
    · simp [setA, getA, h]
    · simp [setA, getA, h, ih]

theorem getA_setA_ne {α β : Type} [DecidableEq α] (l : List (α × β)) (k q : α) (v : β)
    (hqk : q ≠ k) : getA (setA l k v) q = getA l q := by
  induction l with
  | nil => simp [setA, getA, hqk]
  | cons kv rest ih =>
    obtain ⟨k', v'⟩ := kv
    by_cases h : k = k'
    · subst h
      simp [setA, getA, hqk]
    · by_cases hq : q = k'
      · simp [setA, getA, h, hq]
      · simp [setA, getA, h, hq, ih]

theorem lookA_bumpA_self {α : Type} [DecidableEq α] (l : List (α × Nat)) (k : α) :
    lookA (bumpA l k) k = lookA l k + 1 := by
  simp [lookA, bumpA, getA_setA_self]

theorem lookA_bumpA_ne {α : Type} [DecidableEq α] (l : List (α × Nat)) (k q : α)
    (hqk : q ≠ k) : lookA (bumpA l k) q = lookA l q := by
  simp [lookA, bumpA, getA_setA_ne l k q _ hqk]

theorem setA_mem_self {α β : Type} [DecidableEq α] (l : List (α × β)) (k : α) (v : β) :
    (k, v) ∈ setA l k v := by
  induction l with
  | nil => simp [setA]
  | cons kv rest ih =>
    obtain ⟨k', v'⟩ := kv
    by_cases h : k = k'
    · simp [setA, h]
    · simp only [setA, if_neg h, List.mem_cons]
      exact Or.inr ih

theorem mem_setA {α β : Type} [DecidableEq α] (l : List (α × β)) (k : α) (v : β)
    (kv : α × β) (h : kv ∈ setA l k v) : kv = (k, v) ∨ kv ∈ l := by
  induction l with
  | nil => simpa [setA] using h
  | cons hd rest ih =>
    obtain ⟨k', v'⟩ := hd
    by_cases hk : k = k'
    · rw [setA, if_pos hk] at h
      rcases List.mem_cons.mp h with h | h
      · exact Or.inl h
      · exact Or.inr (List.mem_cons_of_mem _ h)
    · rw [setA, if_neg hk] at h
      rcases List.mem_cons.mp h with h | h
      · exact Or.inr (h ▸ List.mem_cons_self _ _)
      · rcases ih h with h | h
        · exact Or.inl h
        · exact Or.inr (List.mem_cons_of_mem _ h)

theorem mem_setA_nodup {α β : Type} [DecidableEq α] (l : List (α × β)) (k : α) (v : β)
    (hnd : (l.map Prod.fst).Nodup) (kv : α × β) (h : kv ∈ setA l k v) :
    kv = (k, v) ∨ (kv ∈ l ∧ kv.1 ≠ k) := by
  induction l with
  | nil => simp [setA] at h; simp [h]
  | cons hd rest ih =>
    obtain ⟨k', v'⟩ := hd
    simp only [List.map_cons, List.nodup_cons] at hnd
    by_cases hk : k = k'
    · rw [setA, if_pos hk] at h
      rcases List.mem_cons.mp h with h | h
      · exact Or.inl h
      · refine Or.inr ⟨List.mem_cons_of_mem _ h, ?_⟩
        intro hkv
        exact hnd.1 (hk ▸ hkv ▸ List.mem_map_of_mem Prod.fst h)
    · rw [setA, if_neg hk] at h
      rcases List.mem_cons.mp h with h | h
      · subst h
        exact Or.inr ⟨List.mem_cons_self _ _, fun hc => hk (hc ▸ rfl)⟩
      · rcases ih hnd.2 h with h | h
        · exact Or.inl h
        · exact Or.inr ⟨List.mem_cons_of_mem _ h.1, h.2⟩

/-- Balances are modelled as integers; no verified property depends on the
numeric representation of a balance, only on equality between balances. -/
abbrev Balance := Int

/-- A monitored (ethereum address, coin symbol) pair, the key of the
previous-balance dictionary in main.py. -/
abbrev PairKey := String × String

/-- The previous_balances dictionary of main.py. -/
abbrev Store := List (PairKey × Balance)

/-- Behaviour of one call to the external ledger client
`ethbalance.get_token_balance` (an external collaborator): it can return a
dict carrying status error, a dict carrying a balance, any other plain value,
or raise an exception. -/
inductive RpcResult : Type where
  | errDict (desc : String)
  | balDict (b : Balance)
  | plain (b : Balance)
  | raises (msg : String)
deriving DecidableEq

/-- What `check_token_balance` hands to its caller when it returns normally:
either the error-shaped dict passed through, or a balance value. -/
inductive CheckResult : Type where
  | errOutcome (desc : String)
  | balance (b : Balance)
deriving DecidableEq

/-- check_token_balance from main.py, lines 83 to 115: an error-shaped dict
from the client is returned as is; a dict containing a balance yields the
balance; any other return value is passed through; an exception from the
client is re-raised after the failure metrics are recorded (`Except.error`
models the propagating exception). -/
def check_token_balance (r : RpcResult) : Except String CheckResult :=
  match r with
  | RpcResult.errDict d => Except.ok (CheckResult.errOutcome d)
  | RpcResult.balDict b => Except.ok (CheckResult.balance b)
  | RpcResult.plain b => Except.ok (CheckResult.balance b)
  | RpcResult.raises m => Except.error m

/-- The balance delivered by a fetch when it succeeds, none otherwise. -/
def successOf (r : RpcResult) : Option Balance :=
  match check_token_balance r with
  | Except.ok (CheckResult.balance b) => some b
  | _ => none

/-- Whether the ledger client call raises. -/
def raisesB (r : RpcResult) : Bool :=
  match r with
  | RpcResult.raises _ => true
  | _ => false

/-- Behaviour of one Telegram sendMessage transport call: a JSON response with
an optional boolean ok field and optional description, or a raised
exception. -/
inductive TelegramResponse : Type where
  | response (ok : Option Bool) (description : Option String)
  | raises (msg : String)
deriving DecidableEq

/-- send_notification from main.py, lines 118 to 144: the result is delivered
(true) exactly when the acknowledgement field ok of the transport response
equals true; any other response, and any transport exception, is classified
as failed (false) and never re-raised. Health-flag and telegram-metric side
effects are not threaded. -/
def send_notification (r : TelegramResponse) : Bool :=
  match r with
  | TelegramResponse.response ok _ => if ok = some true then true else false
  | TelegramResponse.raises _ => false

/-- Response document of the health endpoint: every health flag by name, plus
a timestamp. -/
structure HealthResponse : Type where
  flags : List (String × Bool)
  timestamp : String
deriving DecidableEq

/-- healthcheck from healthcheck.py, lines 27 to 41: the body is a copy of the
health-flag mapping plus a timestamp, and the HTTP status is 200 when every
flag is true, 500 otherwise. -/
def healthcheck (status : List (String × Bool)) (now : String) : HealthResponse × Nat :=
  let all_healthy := status.all (fun kv => kv.2)
  (⟨status, now⟩, if all_healthy then 200 else 500)

/-- The healthcheck_status dictionary as initialized at main.py line 16. -/
def initialHealthStatus : List (String × Bool) :=
  [("eth_rpc_initialized", false), ("telegram_bot_initialized", false),
   ("eth_rpc_status", false)]

/-- The metric families of prometheus_metrics.py that the monitoring cycle
updates. Gauges are key-to-value maps, counters are key-to-count maps, and a
histogram is represented by its number of recorded observations (no stated
property depends on the observed durations themselves). -/
structure Metrics : Type where
  balanceCurrent : List (PairKey × Balance)
  balanceChangeDetectedTotal : List (PairKey × Nat)
  balanceCheckDurationCount : List (PairKey × Nat)
  balanceCheckTotal : List ((String × String × String) × Nat)
  rpcErrorsTotal : List (String × Nat)
  telegramErrorsTotal : List (String × Nat)
  balanceCheckErrorsTotal : List ((String × String × String) × Nat)
  applicationErrorsTotal : List ((String × String) × Nat)
  cycleTotal : Nat
  cycleDurationCount : Nat
deriving DecidableEq

/-- Metrics state at process start: every series empty or zero. -/
def initMetrics : Metrics :=
  ⟨[], [], [], [], [], [], [], [], 0, 0⟩

/-- The change-detection condition inside update_balance_metrics
(prometheus_metrics.py line 203): a previous balance was supplied and the
current balance differs from it. -/
def changeCond (previous : Option Balance) (current : Balance) : Bool :=
  match previous with
  | some p => decide (current ≠ p)
  | none => false

/-- update_balance_metrics from prometheus_metrics.py, lines 190 to 205: set
the current-balance gauge for the pair, increment the per-pair balance-check
counter labelled with the status, record a duration observation when a
duration was supplied, and increment the balance-change counter when a
previous balance was supplied and differs from the current one. -/
def update_balance_metrics (address coin : String) (current : Balance)
    (previous : Option Balance) (duration : Option Nat) (status : String)
    (m : Metrics) : Metrics :=
  let m1 := { m with balanceCurrent := setA m.balanceCurrent (address, coin) current }
  let m2 := { m1 with balanceCheckTotal := bumpA m1.balanceCheckTotal (address, coin, status) }
  let m3 :=
    if duration.isSome then
      { m2 with balanceCheckDurationCount := bumpA m2.balanceCheckDurationCount (address, coin) }
    else m2
  if changeCond previous current then
    { m3 with balanceChangeDetectedTotal := bumpA m3.balanceChangeDetectedTotal (address, coin) }
  else m3

/-- Truthiness of an optional string argument, as Python tests it. -/
def truthy (s : Option String) : Bool :=
  match s with
  | none => false
  | some s => !s.isEmpty

/-- record_error from prometheus_metrics.py, lines 225 to 234: route the error
to the per-component counter family. -/
def record_error (errorType component : String) (address coin : Option String)
    (m : Metrics) : Metrics :=
  if component == "rpc" then
    { m with rpcErrorsTotal := bumpA m.rpcErrorsTotal errorType }
  else if component == "telegram" then
    { m with telegramErrorsTotal := bumpA m.telegramErrorsTotal errorType }
  else if component == "balance_check" && truthy address && truthy coin then
    { m with balanceCheckErrorsTotal :=
        bumpA m.balanceCheckErrorsTotal (address.getD "", coin.getD "", errorType) }
  else
    { m with applicationErrorsTotal := bumpA m.applicationErrorsTotal (errorType, component) }

/-- record_balance_check_cycle from prometheus_metrics.py, lines 236 to 239:
increment the cycle counter and record one cycle-duration observation. -/
def record_balance_check_cycle (_duration : Nat) (m : Metrics) : Metrics :=
  { m with cycleTotal := m.cycleTotal + 1, cycleDurationCount := m.cycleDurationCount + 1 }

/-- One invocation of the Notification Port performed by the cycle. A change
notification records the pair that triggered it and the new balance (the
rendered Telegram text mentions the coin and the new balance); the startup
notification records the wallet shown in the message and the list of rendered
per-pair balance entries in sweep order. -/
inductive Notif : Type where
  | change (address coin : String) (newBalance : Balance)
  | startup (wallet : String) (entries : List String)
deriving DecidableEq

/-- The configured monitoring inputs of main.py: ethereum_addresses and
coins_list. -/
structure BotConfig : Type where
  addresses : List String
  coins : List String
deriving DecidableEq

/-- The sweep order of main_check: for every address, for every coin. -/
def sweepPairs (cfg : BotConfig) : List PairKey :=
  cfg.addresses.flatMap (fun a => cfg.coins.map (fun c => (a, c)))

/-- Result of the per-pair loop of a non-first cycle: whether it completed or
an exception escaped, the store, the notifications sent so far, and the
metrics state. -/
structure SweepOut : Type where
  result : Except String Unit
  store : Store
  notifs : List Notif
  metrics : Metrics

/-- The per-pair loop of the non-first branch of main_check (main.py, lines
198 to 242). An error-shaped fetch records an error metric and skips the
pair; a successful fetch records a success metric, notifies when the balance
differs from the stored one (also when no balance is stored), then stores the
new balance; a raised exception aborts the loop. -/
def runSweepNormal (rpc : PairKey → RpcResult) :
    List PairKey → Store → List Notif → Metrics → SweepOut
  | [], st, ns, m => ⟨Except.ok (), st, ns, m⟩
  | p :: rest, st, ns, m =>
    match check_token_balance (rpc p) with
    | Except.error msg => ⟨Except.error msg, st, ns, m⟩
    | Except.ok (CheckResult.errOutcome _) =>
      let m := update_balance_metrics p.1 p.2 0 (getA st p) (some 0) "error" m
      runSweepNormal rpc rest st ns m
    | Except.ok (CheckResult.balance b) =>
      let prev := getA st p
      let m := update_balance_metrics p.1 p.2 b prev (some 0) "success" m
      let ns := if some b ≠ prev then ns ++ [Notif.change p.1 p.2 b] else ns
      runSweepNormal rpc rest (setA st p b) ns m

/-- Result of the per-pair loop of a first-run cycle: completion status,
store, the accumulated initial_balances entries, and the metrics state. -/
structure FirstSweepOut : Type where
  result : Except String Unit
  store : Store
  entries : List String
  metrics : Metrics

/-- The per-pair loop of the first-run branch of main_check (main.py, lines
158 to 189). An error-shaped fetch records an error metric and appends an
ERROR entry; a successful fetch records a success metric, stores the balance
and appends a balance entry; no per-pair notification is sent; a raised
exception aborts the loop. -/
def runSweepFirst (rpc : PairKey → RpcResult) :
    List PairKey → Store → List String → Metrics → FirstSweepOut
  | [], st, es, m => ⟨Except.ok (), st, es, m⟩
  | p :: rest, st, es, m =>
    match check_token_balance (rpc p) with
    | Except.error msg => ⟨Except.error msg, st, es, m⟩
    | Except.ok (CheckResult.errOutcome _) =>
      let m := update_balance_metrics p.1 p.2 0 none (some 0) "error" m
      runSweepFirst rpc rest st (es ++ [p.2.toUpper ++ ": ERROR"]) m
    | Except.ok (CheckResult.balance b) =>
      let m := update_balance_metrics p.1 p.2 b none (some 0) "success" m
      runSweepFirst rpc rest (setA st p b) (es ++ [p.2.toUpper ++ ": " ++ toString b]) m

/-- Outcome of one whole main_check invocation: whether it returned or
re-raised, the balance store, the Notification Port invocations of the cycle
in order, and the metrics state. -/
structure CycleOut : Type where
  result : Except String Unit
  store : Store
  notifs : List Notif
  metrics : Metrics

/-- main_check from main.py, lines 147 to 255. The first-run test is
emptiness of previous_balances; the chosen branch sweeps all configured
pairs; the first-run branch then sends one aggregated startup notification
naming the first configured address (an empty address list makes that lookup
raise, which the cycle-level handler turns into a recorded, re-raised
failure); finally the cycle counter and duration are recorded, also on the
path where the sweep raised, in which case an application error is recorded
and the exception is re-raised. -/
def main_check (cfg : BotConfig) (rpc : PairKey → RpcResult) (st : Store)
    (m : Metrics) : CycleOut :=
  let is_first_run := st.isEmpty
  if is_first_run then
    let out := runSweepFirst rpc (sweepPairs cfg) st [] m
    match out.result with
    | Except.ok _ =>
      match cfg.addresses.head? with
      | some wallet =>
        ⟨Except.ok (), out.store, [Notif.startup wallet out.entries],
          record_balance_check_cycle 0 out.metrics⟩
      | none =>
        ⟨Except.error "IndexError", out.store, [],
          record_error "balance_check_cycle_error" "main_check" none none
            (record_balance_check_cycle 0 out.metrics)⟩
    | Except.error msg =>
      ⟨Except.error msg, out.store, [],
        record_error "balance_check_cycle_error" "main_check" none none
          (record_balance_check_cycle 0 out.metrics)⟩
  else
    let out := runSweepNormal rpc (sweepPairs cfg) st [] m
    match out.result with
    | Except.ok _ =>
      ⟨Except.ok (), out.store, out.notifs, record_balance_check_cycle 0 out.metrics⟩
    | Except.error msg =>
      ⟨Except.error msg, out.store, out.notifs,
        record_error "balance_check_cycle_error" "main_check" none none
          (record_balance_check_cycle 0 out.metrics)⟩

/-- The scheduling loop of main.py: run main_check once per tick, threading
the store and metrics; each cycle is driven by the ledger-client behaviour of
that tick. A cycle whose exception escapes is fatal to the process, so no
further cycle runs. The third component collects each executed cycle's
notification invocations. -/
def runCycles (cfg : BotConfig) :
    List (PairKey → RpcResult) → Store → Metrics → Store × Metrics × List (List Notif)
  | [], st, m => (st, m, [])
  | rpc :: rest, st, m =>
    let out := main_check cfg rpc st m
    match out.result with
    | Except.ok _ =>
      let r := runCycles cfg rest out.store out.metrics
      (r.1, r.2.1, out.notifs :: r.2.2)
    | Except.error _ => (out.store, out.metrics, [out.notifs])

/-- Specification-side selector: the balance a pair would contribute in one
cycle, namely the fetched balance when the pair is swept and its fetch
succeeds. -/
def cycleSuccess (cfg : BotConfig) (rpc : PairKey → RpcResult) (p : PairKey) :
    Option Balance :=
  if p ∈ sweepPairs cfg then successOf (rpc p) else none

/-- Specification-side selector: the balance of the most recent successful
fetch for a pair across a sequence of cycles, none when no fetch for the pair
ever succeeded. Later cycles take precedence. -/
def mostRecentSuccess (cfg : BotConfig) (p : PairKey) :
    List (PairKey → RpcResult) → Option Balance
  | [] => none
  | rpc :: rest =>
    match mostRecentSuccess cfg p rest with
    | some b => some b
    | none => cycleSuccess cfg rpc p

/-- Left-biased choice on optional balances. -/
def orO (a b : Option Balance) : Option Balance :=
  match a with
  | some x => some x
  | none => b

/-- The initial_balances entry rendered for a pair during a first-run sweep. -/
def entryFor (rpc : PairKey → RpcResult) (p : PairKey) : String :=
  match successOf (rpc p) with
  | some b => p.2.toUpper ++ ": " ++ toString b
  | none => p.2.toUpper ++ ": ERROR"

/-- Concrete one-pair configuration used to instantiate the general theorems. -/
def cfgW : BotConfig := ⟨["A"], ["ETH"]⟩

/-- Concrete two-coin configuration used to instantiate the general theorems. -/
def cfgW2 : BotConfig := ⟨["A"], ["ETH", "USDT"]⟩

/-- Concrete store holding one previously observed balance. -/
def stW : Store := [(("A", "ETH"), 1)]

/-- Ledger behaviour answering balance 2 for every pair. -/
def rpcTwo : PairKey → RpcResult := fun _ => RpcResult.balDict 2

/-- Ledger behaviour answering balance 1 for every pair. -/
def rpcOne : PairKey → RpcResult := fun _ => RpcResult.balDict 1

/-- Ledger behaviour answering an error-shaped dict for every pair. -/
def rpcErrW : PairKey → RpcResult := fun _ => RpcResult.errDict "boom"

/-- Ledger behaviour raising on ETH and succeeding on every other coin. -/
def rpcRaisesW : PairKey → RpcResult :=
  fun p => if p.2 = "ETH" then RpcResult.raises "timeout" else RpcResult.balDict 5

/-- A fully healthy state of the health-flag mapping. -/
def statusW : List (String × Bool) :=
  [("eth_rpc_initialized", true), ("telegram_bot_initialized", true),
   ("eth_rpc_status", true)]

theorem orO_some (x : Balance) (b : Option Balance) : orO (some x) b = some x := rfl

theorem orO_none (b : Option Balance) : orO none b = b := rfl

theorem orO_assoc (a b c : Option Balance) : orO (orO a b) c = orO a (orO b c) := by
  cases a <;> rfl

theorem ubm_balanceCurrent (a c : String) (cur : Balance) (prev : Option Balance)
    (dur : Option Nat) (s : String) (m : Metrics) :
    (update_balance_metrics a c cur prev dur s m).balanceCurrent =
      setA m.balanceCurrent (a, c) cur := by
  unfold update_balance_metrics
  dsimp only
  split <;> split <;> rfl

theorem ubm_balanceCheckTotal (a c : String) (cur : Balance) (prev : Option Balance)
    (dur : Option Nat) (s : String) (m : Metrics) :
    (update_balance_metrics a c cur prev dur s m).balanceCheckTotal =
      bumpA m.balanceCheckTotal (a, c, s) := by
  unfold update_balance_metrics
  dsimp only
  split <;> split <;> rfl

theorem ubm_cycleTotal (a c : String) (cur : Balance) (prev : Option Balance)
    (dur : Option Nat) (s : String) (m : Metrics) :
    (update_balance_metrics a c cur prev dur s m).cycleTotal = m.cycleTotal := by
  unfold update_balance_metrics
  dsimp only
  split <;> split <;> rfl

theorem ubm_cycleDurationCount (a c : String) (cur : Balance) (prev : Option Balance)
    (dur : Option Nat) (s : String) (m : Metrics) :
    (update_balance_metrics a c cur prev dur s m).cycleDurationCount =
      m.cycleDurationCount := by
  unfold update_balance_metrics
  dsimp only
  split <;> split <;> rfl

theorem record_error_balanceCurrent (e comp : String) (a c : Option String) (m : Metrics) :
    (record_error e comp a c m).balanceCurrent = m.balanceCurrent := by
  unfold record_error
  split <;> try rfl
  split <;> try rfl
  split <;> rfl

theorem record_error_balanceCheckTotal (e comp : String) (a c : Option String) (m : Metrics) :
    (record_error e comp a c m).balanceCheckTotal = m.balanceCheckTotal := by
  unfold record_error
  split <;> try rfl
  split <;> try rfl
  split <;> rfl

theorem record_error_cycleTotal (e comp : String) (a c : Option String) (m : Metrics) :
    (record_error e comp a c m).cycleTotal = m.cycleTotal := by
  unfold record_error
  split <;> try rfl
  split <;> try rfl
  split <;> rfl

theorem record_error_cycleDurationCount (e comp : String) (a c : Option String) (m : Metrics) :
    (record_error e comp a c m).cycleDurationCount = m.cycleDurationCount := by
  unfold record_error
  split <;> try rfl
  split <;> try rfl
  split <;> rfl

theorem rbcc_cycleTotal (d : Nat) (m : Metrics) :
    (record_balance_check_cycle d m).cycleTotal = m.cycleTotal + 1 := rfl

theorem rbcc_cycleDurationCount (d : Nat) (m : Metrics) :
    (record_balance_check_cycle d m).cycleDurationCount = m.cycleDurationCount + 1 := rfl

theorem rbcc_balanceCurrent (d : Nat) (m : Metrics) :
    (record_balance_check_cycle d m).balanceCurrent = m.balanceCurrent := rfl

theorem rbcc_balanceCheckTotal (d : Nat) (m : Metrics) :
    (record_balance_check_cycle d m).balanceCheckTotal = m.balanceCheckTotal := rfl

theorem runSweepNormal_cycleTotal (rpc : PairKey → RpcResult) (ps : List PairKey) :
    ∀ (st : Store) (ns : List Notif) (m : Metrics),
      (runSweepNormal rpc ps st ns m).metrics.cycleTotal = m.cycleTotal := by
  induction ps with
  | nil => intro st ns m; rfl
  | cons q rest ih =>
    intro st ns m
    rcases hq : rpc q with d | b | b | msg <;>
      simp [runSweepNormal, check_token_balance, hq, ih, ubm_cycleTotal]

theorem runSweepNormal_cycleDurationCount (rpc : PairKey → RpcResult) (ps : List PairKey) :
    ∀ (st : Store) (ns : List Notif) (m : Metrics),
      (runSweepNormal rpc ps st ns m).metrics.cycleDurationCount = m.cycleDurationCount := by
  induction ps with
  | nil => intro st ns m; rfl
  | cons q rest ih =>
    intro st ns m
    rcases hq : rpc q with d | b | b | msg <;>
      simp [runSweepNormal, check_token_balance, hq, ih, ubm_cycleDurationCount]

theorem runSweepFirst_cycleTotal (rpc : PairKey → RpcResult) (ps : List PairKey) :
    ∀ (st : Store) (es : List String) (m : Metrics),
      (runSweepFirst rpc ps st es m).metrics.cycleTotal = m.cycleTotal := by
  induction ps with
  | nil => intro st es m; rfl
  | cons q rest ih =>
    intro st es m
    rcases hq : rpc q with d | b | b | msg <;>
      simp [runSweepFirst, check_token_balance, hq, ih, ubm_cycleTotal]

theorem runSweepFirst_cycleDurationCount (rpc : PairKey → RpcResult) (ps : List PairKey) :
    ∀ (st : Store) (es : List String) (m : Metrics),
      (runSweepFirst rpc ps st es m).metrics.cycleDurationCount = m.cycleDurationCount := by
  induction ps with
  | nil => intro st es m; rfl
  | cons q rest ih =>
    intro st es m
    rcases hq : rpc q with d | b | b | msg <;>
      simp [runSweepFirst, check_token_balance, hq, ih, ubm_cycleDurationCount]

/-- Claim C7: every invocation of the monitoring cycle increments the cycle
counter and records exactly one cycle-duration observation, on the normal
completion path and on the path where the sweep raises; in the latter case
the metrics are already recorded in the state carried by the re-raising
outcome. -/
theorem C7_cycle_metrics_once (cfg : BotConfig) (rpc : PairKey → RpcResult)
    (st : Store) (m : Metrics) :
    (main_check cfg rpc st m).metrics.cycleTotal = m.cycleTotal + 1 ∧
      (main_check cfg rpc st m).metrics.cycleDurationCount = m.cycleDurationCount + 1 := by
  unfold main_check
  by_cases h : st.isEmpty <;>
    simp only [h, Bool.false_eq_true, if_true, if_false] <;>
    (repeat' split) <;>
    simp [record_error_cycleTotal, record_error_cycleDurationCount, rbcc_cycleTotal,
      rbcc_cycleDurationCount, runSweepNormal_cycleTotal, runSweepNormal_cycleDurationCount,
      runSweepFirst_cycleTotal, runSweepFirst_cycleDurationCount]

theorem runSweepNormal_ok (rpc : PairKey → RpcResult) (ps : List PairKey)
    (hno : ∀ q ∈ ps, raisesB (rpc q) = false) :
    ∀ (st : Store) (ns : List Notif) (m : Metrics),
      (runSweepNormal rpc ps st ns m).result = Except.ok () := by
  induction ps with
  | nil => intro st ns m; rfl
  | cons q rest ih =>
    intro st ns m
    have hq' := hno q (List.mem_cons_self _ _)
    have ih' := ih (fun r hr => hno r (List.mem_cons_of_mem _ hr))
    rcases hq : rpc q with d | b | b | msg <;>
      simp [runSweepNormal, check_token_balance, hq, ih'] <;>
      simp [raisesB, hq] at hq'

theorem runSweepFirst_ok (rpc : PairKey → RpcResult) (ps : List PairKey)
    (hno : ∀ q ∈ ps, raisesB (rpc q) = false) :
    ∀ (st : Store) (es : List String) (m : Metrics),
      (runSweepFirst rpc ps st es m).result = Except.ok () := by
  induction ps with
  | nil => intro st es m; rfl
  | cons q rest ih =>
    intro st es m
    have hq' := hno q (List.mem_cons_self _ _)
    have ih' := ih (fun r hr => hno r (List.mem_cons_of_mem _ hr))
    rcases hq : rpc q with d | b | b | msg <;>
      simp [runSweepFirst, check_token_balance, hq, ih'] <;>
      simp [raisesB, hq] at hq'

theorem runSweepNormal_getA (rpc : PairKey → RpcResult) (p : PairKey) (ps : List PairKey)
    (hno : ∀ q ∈ ps, raisesB (rpc q) = false) :
    ∀ (st : Store) (ns : List Notif) (m : Metrics),
      getA (runSweepNormal rpc ps st ns m).store p =
        orO (if p ∈ ps then successOf (rpc p) else none) (getA st p) := by
  induction ps with
  | nil => intro st ns m; simp [runSweepNormal, orO_none]
  | cons q rest ih =>
    intro st ns m
    have hq' := hno q (List.mem_cons_self _ _)
    have ih' := ih (fun r hr => hno r (List.mem_cons_of_mem _ hr))
    rcases hq : rpc q with d | b | b | msg
    · by_cases hpq : p = q
      · subst hpq
        simp [runSweepNormal, check_token_balance, hq, ih', successOf, orO]
      · simp [runSweepNormal, check_token_balance, hq, ih', List.mem_cons, hpq]
    · by_cases hpq : p = q
      · subst hpq
        simp only [runSweepNormal, check_token_balance, hq, ih', successOf, orO,
          getA_setA_self, List.mem_cons, true_or, if_true]
        by_cases hr : p ∈ rest <;> simp [hr]
      · simp [runSweepNormal, check_token_balance, hq, ih', List.mem_cons, hpq,
          getA_setA_ne _ _ _ _ hpq]
    · by_cases hpq : p = q
      · subst hpq
        simp only [runSweepNormal, check_token_balance, hq, ih', successOf, orO,
          getA_setA_self, List.mem_cons, true_or, if_true]
        by_cases hr : p ∈ rest <;> simp [hr]
      · simp [runSweepNormal, check_token_balance, hq, ih', List.mem_cons, hpq,
          getA_setA_ne _ _ _ _ hpq]
    · simp [raisesB, hq] at hq'

theorem runSweepFirst_getA (rpc : PairKey → RpcResult) (p : PairKey) (ps : List PairKey)
    (hno : ∀ q ∈ ps, raisesB (rpc q) = false) :
    ∀ (st : Store) (es : List String) (m : Metrics),
      getA (runSweepFirst rpc ps st es m).store p =
        orO (if p ∈ ps then successOf (rpc p) else none) (getA st p) := by
  induction ps with
  | nil => intro st es m; simp [runSweepFirst, orO_none]
  | cons q rest ih =>
    intro st es m
    have hq' := hno q (List.mem_cons_self _ _)
    have ih' := ih (fun r hr => hno r (List.mem_cons_of_mem _ hr))
    rcases hq : rpc q with d | b | b | msg
    · by_cases hpq : p = q
      · subst hpq
        simp [runSweepFirst, check_token_balance, hq, ih', successOf, orO]
      · simp [runSweepFirst, check_token_balance, hq, ih', List.mem_cons, hpq]
    · by_cases hpq : p = q
      · subst hpq
        simp only [runSweepFirst, check_token_balance, hq, ih', successOf, orO,
          getA_setA_self, List.mem_cons, true_or, if_true]
        by_cases hr : p ∈ rest <;> simp [hr]
      · simp [runSweepFirst, check_token_balance, hq, ih', List.mem_cons, hpq,
          getA_setA_ne _ _ _ _ hpq]
    · by_cases hpq : p = q
      · subst hpq
        simp only [runSweepFirst, check_token_balance, hq, ih', successOf, orO,
          getA_setA_self, List.mem_cons, true_or, if_true]
        by_cases hr : p ∈ rest <;> simp [hr]
      · simp [runSweepFirst, check_token_balance, hq, ih', List.mem_cons, hpq,
          getA_setA_ne _ _ _ _ hpq]
    · simp [raisesB, hq] at hq'

theorem main_check_store (cfg : BotConfig) (rpc : PairKey → RpcResult) (st : Store)
    (m : Metrics) :
    (main_check cfg rpc st m).store =
      if st.isEmpty then (runSweepFirst rpc (sweepPairs cfg) st [] m).store
      else (runSweepNormal rpc (sweepPairs cfg) st [] m).store := by
  unfold main_check
  by_cases h : st.isEmpty <;>
    simp only [h, Bool.false_eq_true, if_true, if_false] <;>
    (repeat' split) <;> rfl

theorem main_check_getA (cfg : BotConfig) (rpc : PairKey → RpcResult) (st : Store)
    (m : Metrics) (hno : ∀ q ∈ sweepPairs cfg, raisesB (rpc q) = false) (p : PairKey) :
    getA (main_check cfg rpc st m).store p =
      orO (cycleSuccess cfg rpc p) (getA st p) := by
  rw [main_check_store]
  unfold cycleSuccess
  by_cases h : st.isEmpty <;>
    simp only [h, Bool.false_eq_true, if_true, if_false]
  · exact runSweepFirst_getA rpc p _ hno st [] m
  · exact runSweepNormal_getA rpc p _ hno st [] m

theorem mostRecentSuccess_cons (cfg : BotConfig) (p : PairKey)
    (rpc : PairKey → RpcResult) (rest : List (PairKey → RpcResult)) :
    mostRecentSuccess cfg p (rpc :: rest) =
      orO (mostRecentSuccess cfg p rest) (cycleSuccess cfg rpc p) := by
  cases h : mostRecentSuccess cfg p rest <;> simp [mostRecentSuccess, h, orO]

theorem sweepPairs_of_addresses_nil (cfg : BotConfig) (h : cfg.addresses = []) :
    sweepPairs cfg = [] := by
  simp [sweepPairs, h]

theorem mostRecentSuccess_of_pairs_nil (cfg : BotConfig) (p : PairKey)
    (h : sweepPairs cfg = []) (rpcs : List (PairKey → RpcResult)) :
    mostRecentSuccess cfg p rpcs = none := by
  induction rpcs with
  | nil => rfl
  | cons rpc rest ih => simp [mostRecentSuccess, ih, cycleSuccess, h]

theorem main_check_ok (cfg : BotConfig) (rpc : PairKey → RpcResult) (st : Store)
    (m : Metrics) (hno : ∀ q ∈ sweepPairs cfg, raisesB (rpc q) = false)
    (w : String) (as_ : List String) (haddr : cfg.addresses = w :: as_) :
    (main_check cfg rpc st m).result = Except.ok () := by
  unfold main_check
  by_cases h : st.isEmpty <;>
    simp only [h, Bool.false_eq_true, if_true, if_false]
  · rw [runSweepFirst_ok rpc _ hno, haddr]
    rfl
  · rw [runSweepNormal_ok rpc _ hno]

theorem runCycles_getA_pairs_nil (cfg : BotConfig) (p : PairKey)
    (hp : sweepPairs cfg = []) :
    ∀ (rpcs : List (PairKey → RpcResult)) (st : Store) (m : Metrics),
      getA (runCycles cfg rpcs st m).1 p = getA st p := by
  intro rpcs
  induction rpcs with
  | nil => intro st m; rfl
  | cons rpc rest ih =>
    intro st m
    have hst : (main_check cfg rpc st m).store = st := by
      rw [main_check_store, hp]
      by_cases h : st.isEmpty <;> simp [h, runSweepFirst, runSweepNormal]
    unfold runCycles
    cases hres : (main_check cfg rpc st m).result with
    | ok u => simp only [hres, ih, hst]
    | error e => simp only [hres, hst]

theorem runCycles_getA (cfg : BotConfig) (p : PairKey) (w : String) (as_ : List String)
    (haddr : cfg.addresses = w :: as_) :
    ∀ (rpcs : List (PairKey → RpcResult)) (st : Store) (m : Metrics),
      (∀ r ∈ rpcs, ∀ q ∈ sweepPairs cfg, raisesB (r q) = false) →
      getA (runCycles cfg rpcs st m).1 p =
        orO (mostRecentSuccess cfg p rpcs) (getA st p) := by
  intro rpcs
  induction rpcs with
  | nil => intro st m _; simp [runCycles, mostRecentSuccess, orO_none]
  | cons rpc rest ih =>
    intro st m hno
    have hno1 : ∀ q ∈ sweepPairs cfg, raisesB (rpc q) = false :=
      hno rpc (List.mem_cons_self _ _)
    have hnor : ∀ r ∈ rest, ∀ q ∈ sweepPairs cfg, raisesB (r q) = false :=
      fun r hr => hno r (List.mem_cons_of_mem _ hr)
    unfold runCycles
    simp only [main_check_ok cfg rpc st m hno1 w as_ haddr]
    rw [ih _ _ hnor, main_check_getA cfg rpc st m hno1 p, mostRecentSuccess_cons,
      orO_assoc]

/-- Claim C2: across any sequence of cycles starting from the empty store and
free of cycle-aborting client exceptions, the stored balance of every pair is
exactly the balance of the most recent successful fetch for that pair, absent
when no fetch for the pair ever succeeded; error-shaped fetch outcomes never
alter what is stored. -/
theorem C2_store_is_last_success (cfg : BotConfig) (rpcs : List (PairKey → RpcResult))
    (m : Metrics)
    (hno : ∀ r ∈ rpcs, ∀ q ∈ sweepPairs cfg, raisesB (r q) = false) (p : PairKey) :
    getA (runCycles cfg rpcs [] m).1 p = mostRecentSuccess cfg p rpcs := by
  cases haddr : cfg.addresses with
  | nil =>
    rw [runCycles_getA_pairs_nil cfg p (sweepPairs_of_addresses_nil cfg haddr),
      mostRecentSuccess_of_pairs_nil cfg p (sweepPairs_of_addresses_nil cfg haddr)]
    rfl
  | cons w as_ =>
    rw [runCycles_getA cfg p w as_ haddr rpcs [] m hno]
    cases mostRecentSuccess cfg p rpcs <;> rfl

theorem runSweepNormal_change_frame (rpc : PairKey → RpcResult) (p : PairKey) (b : Balance)
    (ps : List PairKey) (hp : p ∉ ps) :
    ∀ (st : Store) (ns : List Notif) (m : Metrics),
      (Notif.change p.1 p.2 b ∈ (runSweepNormal rpc ps st ns m).notifs ↔
        Notif.change p.1 p.2 b ∈ ns) := by
  induction ps with
  | nil => intro st ns m; simp [runSweepNormal]
  | cons q rest ih =>
    intro st ns m
    have hpq : p ≠ q := fun h => hp (h ▸ List.mem_cons_self _ _)
    have hpr : p ∉ rest := fun h => hp (List.mem_cons_of_mem _ h)
    have hne : ∀ bq : Balance, Notif.change p.1 p.2 b ≠ Notif.change q.1 q.2 bq := by
      intro bq h
      injection h with h1 h2 h3
      exact hpq (Prod.ext h1 h2)
    rcases hq : rpc q with d | bq | bq | msg
    · simp [runSweepNormal, check_token_balance, hq, ih hpr]
    · by_cases hch : some bq ≠ getA st q <;>
        simp [runSweepNormal, check_token_balance, hq, ih hpr, hch, hne bq]
    · by_cases hch : some bq ≠ getA st q <;>
        simp [runSweepNormal, check_token_balance, hq, ih hpr, hch, hne bq]
    · simp [runSweepNormal, check_token_balance, hq]

theorem runSweepNormal_change_iff (rpc : PairKey → RpcResult) (p : PairKey) (b : Balance)
    (hb : successOf (rpc p) = some b) :
    ∀ (ps : List PairKey), (∀ q ∈ ps, raisesB (rpc q) = false) → ps.Nodup → p ∈ ps →
      ∀ (st : Store) (ns : List Notif) (m : Metrics) (bx : Balance),
        (Notif.change p.1 p.2 bx ∈ (runSweepNormal rpc ps st ns m).notifs ↔
          (Notif.change p.1 p.2 bx ∈ ns ∨ (bx = b ∧ some b ≠ getA st p))) := by
  intro ps
  induction ps with
  | nil => intro _ _ hp; exact absurd hp (List.not_mem_nil p)
  | cons q rest ih =>
    intro hno hnd hp st ns m bx
    rw [List.nodup_cons] at hnd
    by_cases hpq : p = q
    · subst hpq
      rcases hq : rpc p with d | bq | bq | msg
      · simp [successOf, check_token_balance, hq] at hb
      · simp only [successOf, check_token_balance, hq, Option.some.injEq] at hb
        subst hb
        by_cases hch : some bq = getA st p <;>
          simp [runSweepNormal, check_token_balance, hq, hch,
            runSweepNormal_change_frame rpc p bx rest hnd.1]
      · simp only [successOf, check_token_balance, hq, Option.some.injEq] at hb
        subst hb
        by_cases hch : some bq = getA st p <;>
          simp [runSweepNormal, check_token_balance, hq, hch,
            runSweepNormal_change_frame rpc p bx rest hnd.1]
      · simp [successOf, check_token_balance, hq] at hb
    · have hpr : p ∈ rest := (List.mem_cons.mp hp).resolve_left hpq
      have hnor : ∀ r ∈ rest, raisesB (rpc r) = false :=
        fun r hr => hno r (List.mem_cons_of_mem _ hr)
      have hq' := hno q (List.mem_cons_self _ _)
      have hne : ∀ bq : Balance, Notif.change p.1 p.2 bx ≠ Notif.change q.1 q.2 bq := by
        intro bq h
        injection h with h1 h2 h3
        exact hpq (Prod.ext h1 h2)
      rcases hq : rpc q with d | bq | bq | msg
      · simp [runSweepNormal, check_token_balance, hq,
          ih hnor hnd.2 hpr st ns _ bx]
      · by_cases hch : some bq ≠ getA st q <;>
          simp [runSweepNormal, check_token_balance, hq, hch,
            ih hnor hnd.2 hpr (setA st q bq) _ _ bx, hne bq,
            getA_setA_ne st q p bq hpq]
      · by_cases hch : some bq ≠ getA st q <;>
          simp [runSweepNormal, check_token_balance, hq, hch,
            ih hnor hnd.2 hpr (setA st q bq) _ _ bx, hne bq,
            getA_setA_ne st q p bq hpq]
      · simp [raisesB, hq] at hq'

theorem runSweepNormal_store_noSuccess (rpc : PairKey → RpcResult) (p : PairKey)
    (h : successOf (rpc p) = none) :
    ∀ (ps : List PairKey) (st : Store) (ns : List Notif) (m : Metrics),
      getA (runSweepNormal rpc ps st ns m).store p = getA st p := by
  intro ps
  induction ps with
  | nil => intro st ns m; rfl
  | cons q rest ih =>
    intro st ns m
    by_cases hpq : p = q
    · subst hpq
      rcases hq : rpc p with d | bq | bq | msg
      · simp [runSweepNormal, check_token_balance, hq, ih]
      · simp [successOf, check_token_balance, hq] at h
      · simp [successOf, check_token_balance, hq] at h
      · simp [runSweepNormal, check_token_balance, hq]
    · rcases hq : rpc q with d | bq | bq | msg <;>
        simp [runSweepNormal, check_token_balance, hq, ih,
          getA_setA_ne st q p _ hpq]

theorem runSweepFirst_store_noSuccess (rpc : PairKey → RpcResult) (p : PairKey)
    (h : successOf (rpc p) = none) :
    ∀ (ps : List PairKey) (st : Store) (es : List String) (m : Metrics),
      getA (runSweepFirst rpc ps st es m).store p = getA st p := by
  intro ps
  induction ps with
  | nil => intro st es m; rfl
  | cons q rest ih =>
    intro st es m
    by_cases hpq : p = q
    · subst hpq
      rcases hq : rpc p with d | bq | bq | msg
      · simp [runSweepFirst, check_token_balance, hq, ih]
      · simp [successOf, check_token_balance, hq] at h
      · simp [successOf, check_token_balance, hq] at h
      · simp [runSweepFirst, check_token_balance, hq]
    · rcases hq : rpc q with d | bq | bq | msg <;>
        simp [runSweepFirst, check_token_balance, hq, ih,
          getA_setA_ne st q p _ hpq]

theorem runSweepNormal_change_noSuccess (rpc : PairKey → RpcResult) (p : PairKey)
    (h : successOf (rpc p) = none) :
    ∀ (ps : List PairKey) (st : Store) (ns : List Notif) (m : Metrics) (b : Balance),
      (Notif.change p.1 p.2 b ∈ (runSweepNormal rpc ps st ns m).notifs ↔
        Notif.change p.1 p.2 b ∈ ns) := by
  intro ps
  induction ps with
  | nil => intro st ns m b; simp [runSweepNormal]
  | cons q rest ih =>
    intro st ns m b
    by_cases hpq : p = q
    · subst hpq
      rcases hq : rpc p with d | bq | bq | msg
      · simp [runSweepNormal, check_token_balance, hq, ih]
      · simp [successOf, check_token_balance, hq] at h
      · simp [successOf, check_token_balance, hq] at h
      · simp [runSweepNormal, check_token_balance, hq]
    · have hne : ∀ bq : Balance, Notif.change p.1 p.2 b ≠ Notif.change q.1 q.2 bq := by
        intro bq hc
        injection hc with h1 h2 h3
        exact hpq (Prod.ext h1 h2)
      rcases hq : rpc q with d | bq | bq | msg
      · simp [runSweepNormal, check_token_balance, hq, ih]
      · by_cases hch : some bq ≠ getA st q <;>
          simp [runSweepNormal, check_token_balance, hq, hch, ih, hne bq]
      · by_cases hch : some bq ≠ getA st q <;>
          simp [runSweepNormal, check_token_balance, hq, hch, ih, hne bq]
      · simp [runSweepNormal, check_token_balance, hq]

theorem main_check_notifs_normal (cfg : BotConfig) (rpc : PairKey → RpcResult)
    (st : Store) (m : Metrics) (h : st.isEmpty = false) :
    (main_check cfg rpc st m).notifs = (runSweepNormal rpc (sweepPairs cfg) st [] m).notifs := by
  unfold main_check
  simp only [h, Bool.false_eq_true, if_false]
  (repeat' split) <;> rfl

theorem main_check_first_no_change (cfg : BotConfig) (rpc : PairKey → RpcResult)
    (st : Store) (m : Metrics) (h : st.isEmpty = true) (a c : String) (b : Balance) :
    Notif.change a c b ∉ (main_check cfg rpc st m).notifs := by
  unfold main_check
  simp only [h, if_true]
  (repeat' split) <;> simp

/-- Claim C1: on a non-first cycle (non-empty store at cycle start, all client
calls returning rather than raising, distinct sweep pairs), a change
notification for a pair whose fetch succeeds with balance b is sent exactly
when b differs from the balance stored for that pair, including the case
where nothing is stored for it; when the balances are equal, no change
notification for the pair is sent (no notification with any balance value bx
exists). -/
theorem C1_change_notification_iff_diff (cfg : BotConfig) (rpc : PairKey → RpcResult)
    (st : Store) (m : Metrics) (p : PairKey) (b bx : Balance)
    (hne : st.isEmpty = false)
    (hnd : (sweepPairs cfg).Nodup)
    (hno : ∀ q ∈ sweepPairs cfg, raisesB (rpc q) = false)
    (hp : p ∈ sweepPairs cfg)
    (hb : check_token_balance (rpc p) = Except.ok (CheckResult.balance b)) :
    (Notif.change p.1 p.2 bx ∈ (main_check cfg rpc st m).notifs ↔
      (bx = b ∧ some b ≠ getA st p)) := by
  have hb' : successOf (rpc p) = some b := by
    unfold successOf
    rw [hb]
  rw [main_check_notifs_normal cfg rpc st m hne]
  have h := runSweepNormal_change_iff rpc p b hb' (sweepPairs cfg) hno hnd hp st [] m bx
  simpa using h

/-- Witness for C1 at a concrete input: stored balance 1, fetched balance 2. -/
theorem C1_witness :
    (Notif.change "A" "ETH" 2 ∈ (main_check cfgW rpcTwo stW initMetrics).notifs ↔
      ((2 : Balance) = 2 ∧ some (2 : Balance) ≠ getA stW ("A", "ETH"))) :=
  C1_change_notification_iff_diff cfgW rpcTwo stW initMetrics ("A", "ETH") 2 2
    rfl (by decide) (by decide) (by decide) rfl

/-- Claim C5: a pair whose fetch returns an error-shaped outcome keeps its
previous_balances entry unchanged in that cycle (absent stays absent, a
stored value is untouched), and no per-pair change notification for that pair
is sent in that cycle; this holds on first-run and non-first cycles alike
(the first-run branch sends no per-pair notification at all). -/
theorem C5_error_isolated (cfg : BotConfig) (rpc : PairKey → RpcResult) (st : Store)
    (m : Metrics) (p : PairKey) (d : String)
    (herr : check_token_balance (rpc p) = Except.ok (CheckResult.errOutcome d)) :
    getA (main_check cfg rpc st m).store p = getA st p ∧
      ∀ b : Balance, Notif.change p.1 p.2 b ∉ (main_check cfg rpc st m).notifs := by
  have hns : successOf (rpc p) = none := by
    unfold successOf
    rw [herr]
  constructor
  · rw [main_check_store]
    by_cases h : st.isEmpty <;> simp only [h, Bool.false_eq_true, if_true, if_false]
    · exact runSweepFirst_store_noSuccess rpc p hns _ st [] m
    · exact runSweepNormal_store_noSuccess rpc p hns _ st [] m
  · intro b
    by_cases h : st.isEmpty
    · exact main_check_first_no_change cfg rpc st m h p.1 p.2 b
    · rw [main_check_notifs_normal cfg rpc st m (by simpa using h)]
      rw [runSweepNormal_change_noSuccess rpc p hns _ st [] m b]
      simp

/-- Witness for C5 at a concrete input: an error outcome leaves the stored
balance for the pair in place and produces no change notification. -/
theorem C5_witness :
    getA (main_check cfgW rpcErrW stW initMetrics).store ("A", "ETH") =
        getA stW ("A", "ETH") ∧
      Notif.change "A" "ETH" 7 ∉ (main_check cfgW rpcErrW stW initMetrics).notifs :=
  ⟨(C5_error_isolated cfgW rpcErrW stW initMetrics ("A", "ETH") "boom" rfl).1,
   (C5_error_isolated cfgW rpcErrW stW initMetrics ("A", "ETH") "boom" rfl).2 7⟩

/-- Witness for C2 at a concrete input: success 1, then an error cycle, then
success 2; the store holds the balance of the most recent success. -/
theorem C2_witness :
    getA (runCycles cfgW [rpcOne, rpcErrW, rpcTwo] [] initMetrics).1 ("A", "ETH") =
      mostRecentSuccess cfgW ("A", "ETH") [rpcOne, rpcErrW, rpcTwo] :=
  C2_store_is_last_success cfgW [rpcOne, rpcErrW, rpcTwo] initMetrics
    (by
      intro r hr q hq
      simp only [List.mem_cons, List.not_mem_nil, or_false] at hr
      rcases hr with rfl | rfl | rfl <;> rfl)
    ("A", "ETH")

theorem runSweepFirst_entries (rpc : PairKey → RpcResult) :
    ∀ (ps : List PairKey), (∀ q ∈ ps, raisesB (rpc q) = false) →
      ∀ (st : Store) (es : List String) (m : Metrics),
        (runSweepFirst rpc ps st es m).entries = es ++ ps.map (entryFor rpc) := by
  intro ps
  induction ps with
  | nil => intro _ st es m; simp [runSweepFirst]
  | cons q rest ih =>
    intro hno st es m
    have hq' := hno q (List.mem_cons_self _ _)
    have ih' := ih (fun r hr => hno r (List.mem_cons_of_mem _ hr))
    rcases hq : rpc q with d | bq | bq | msg
    · simp [runSweepFirst, check_token_balance, hq, ih', entryFor, successOf]
    · simp [runSweepFirst, check_token_balance, hq, ih', entryFor, successOf]
    · simp [runSweepFirst, check_token_balance, hq, ih', entryFor, successOf]
    · simp [raisesB, hq] at hq'

theorem main_check_first_notifs (cfg : BotConfig) (rpc : PairKey → RpcResult)
    (st : Store) (m : Metrics) (w : String) (as_ : List String)
    (hempty : st.isEmpty = true) (haddr : cfg.addresses = w :: as_)
    (hno : ∀ q ∈ sweepPairs cfg, raisesB (rpc q) = false) :
    (main_check cfg rpc st m).notifs =
      [Notif.startup w ((sweepPairs cfg).map (entryFor rpc))] := by
  unfold main_check
  simp only [hempty, if_true]
  rw [runSweepFirst_ok rpc _ hno, haddr]
  simp [runSweepFirst_entries rpc _ hno st [] m]

theorem runSweepFirst_store_const (rpc : PairKey → RpcResult) :
    ∀ (ps : List PairKey), (∀ q ∈ ps, ∃ d, rpc q = RpcResult.errDict d) →
      ∀ (st : Store) (es : List String) (m : Metrics),
        (runSweepFirst rpc ps st es m).store = st := by
  intro ps
  induction ps with
  | nil => intro _ st es m; rfl
  | cons q rest ih =>
    intro hall st es m
    obtain ⟨d, hd⟩ := hall q (List.mem_cons_self _ _)
    have ih' := ih (fun r hr => hall r (List.mem_cons_of_mem _ hr))
    simp [runSweepFirst, check_token_balance, hd, ih']

/-- Claim C3: on a first cycle (empty store at cycle start, a configured
wallet address, all client calls returning), no per-pair change notification
is sent and exactly one aggregated startup notification is sent after the
sweep; its entry list has one entry per configured pair in (address, then
coin) sweep order, where a pair whose fetch succeeded is listed with its
initial balance (a pair whose fetch failed is listed with an ERROR marker). -/
theorem C3_first_cycle_aggregated (cfg : BotConfig) (rpc : PairKey → RpcResult)
    (st : Store) (m : Metrics) (w : String) (as_ : List String)
    (hempty : st.isEmpty = true) (haddr : cfg.addresses = w :: as_)
    (hno : ∀ q ∈ sweepPairs cfg, raisesB (rpc q) = false) :
    (main_check cfg rpc st m).notifs =
      [Notif.startup w ((sweepPairs cfg).map (entryFor rpc))] :=
  main_check_first_notifs cfg rpc st m w as_ hempty haddr hno

/-- Witness for C3 at a concrete input: two coins, both fetches succeed; the
single startup notification lists them in sweep order. -/
theorem C3_witness :
    (main_check cfgW2 rpcTwo [] initMetrics).notifs =
      [Notif.startup "A" ((sweepPairs cfgW2).map (entryFor rpcTwo))] :=
  C3_first_cycle_aggregated cfgW2 rpcTwo [] initMetrics "A" [] rfl rfl (by decide)

/-- Claim C9: as long as the store is empty at the start of every cycle,
which happens exactly while no fetch has ever succeeded, every cycle takes
the first-run branch and sends the aggregated startup notification again: a
run in which every cycle yields only error-shaped outcomes sends one startup
notification per cycle and ends with the store still empty. -/
theorem C9_startup_repeats (cfg : BotConfig) (w : String) (as_ : List String)
    (haddr : cfg.addresses = w :: as_) (rpcs : List (PairKey → RpcResult))
    (hall : ∀ r ∈ rpcs, ∀ q ∈ sweepPairs cfg, ∃ d, r q = RpcResult.errDict d) :
    ∀ m : Metrics,
      (runCycles cfg rpcs [] m).2.2 =
        rpcs.map (fun r => [Notif.startup w ((sweepPairs cfg).map (entryFor r))]) ∧
      (runCycles cfg rpcs [] m).1 = [] := by
  induction rpcs with
  | nil => intro m; exact ⟨rfl, rfl⟩
  | cons rpc rest ih =>
    intro m
    have h1 : ∀ q ∈ sweepPairs cfg, ∃ d, rpc q = RpcResult.errDict d :=
      hall rpc (List.mem_cons_self _ _)
    have hno1 : ∀ q ∈ sweepPairs cfg, raisesB (rpc q) = false := by
      intro q hq
      obtain ⟨d, hd⟩ := h1 q hq
      simp [raisesB, hd]
    have hok := main_check_ok cfg rpc [] m hno1 w as_ haddr
    have hstore : (main_check cfg rpc [] m).store = [] := by
      rw [main_check_store]
      simpa using runSweepFirst_store_const rpc _ h1 [] [] m
    have hnotifs := main_check_first_notifs cfg rpc [] m w as_ rfl haddr hno1
    have ih' := ih (fun r hr => hall r (List.mem_cons_of_mem _ hr))
      (main_check cfg rpc [] m).metrics
    unfold runCycles
    simp only [hok, hstore, hnotifs]
    exact ⟨by rw [List.map_cons, ih'.1], ih'.2⟩

/-- Witness for C9 at a concrete input: two consecutive all-error cycles from
the empty store each send the startup notification, and the store stays
empty. -/
theorem C9_witness :
    (runCycles cfgW [rpcErrW, rpcErrW] [] initMetrics).2.2 =
        [rpcErrW, rpcErrW].map
          (fun r => [Notif.startup "A" ((sweepPairs cfgW).map (entryFor r))]) ∧
      (runCycles cfgW [rpcErrW, rpcErrW] [] initMetrics).1 = [] :=
  C9_startup_repeats cfgW "A" [] rfl [rpcErrW, rpcErrW]
    (by
      intro r hr q hq
      simp only [List.mem_cons, List.not_mem_nil, or_false] at hr
      rcases hr with rfl | rfl <;> exact ⟨"boom", rfl⟩)
    initMetrics

theorem key3_ne (p q : PairKey) (hpq : p ≠ q) (s1 s2 : String) :
    ((p.1, p.2, s1) : String × String × String) ≠ (q.1, q.2, s2) := by
  intro h
  apply hpq
  have h1 := congrArg Prod.fst h
  have h2 := congrArg (fun x : String × String × String => x.2.1) h
  exact Prod.ext h1 h2

theorem runSweepNormal_metrics_frame (rpc : PairKey → RpcResult) (p : PairKey)
    (s : String) :
    ∀ (ps : List PairKey), p ∉ ps →
      ∀ (st : Store) (ns : List Notif) (m : Metrics),
        getA (runSweepNormal rpc ps st ns m).metrics.balanceCurrent p =
            getA m.balanceCurrent p ∧
          lookA (runSweepNormal rpc ps st ns m).metrics.balanceCheckTotal (p.1, p.2, s) =
            lookA m.balanceCheckTotal (p.1, p.2, s) := by
  intro ps
  induction ps with
  | nil => intro _ st ns m; exact ⟨rfl, rfl⟩
  | cons q rest ih =>
    intro hp st ns m
    have hpq : p ≠ q := fun h => hp (h ▸ List.mem_cons_self _ _)
    have ih' := ih (fun h => hp (List.mem_cons_of_mem _ h))
    have hpq' : p ≠ (q.1, q.2) := by simpa using hpq
    rcases hq : rpc q with d | bq | bq | msg <;>
      simp [runSweepNormal, check_token_balance, hq, ih', ubm_balanceCurrent,
        ubm_balanceCheckTotal, getA_setA_ne _ _ _ _ hpq',
        lookA_bumpA_ne _ _ _ (key3_ne p q hpq _ _)]

theorem runSweepFirst_metrics_frame (rpc : PairKey → RpcResult) (p : PairKey)
    (s : String) :
    ∀ (ps : List PairKey), p ∉ ps →
      ∀ (st : Store) (es : List String) (m : Metrics),
        getA (runSweepFirst rpc ps st es m).metrics.balanceCurrent p =
            getA m.balanceCurrent p ∧
          lookA (runSweepFirst rpc ps st es m).metrics.balanceCheckTotal (p.1, p.2, s) =
            lookA m.balanceCheckTotal (p.1, p.2, s) := by
  intro ps
  induction ps with
  | nil => intro _ st es m; exact ⟨rfl, rfl⟩
  | cons q rest ih =>
    intro hp st es m
    have hpq : p ≠ q := fun h => hp (h ▸ List.mem_cons_self _ _)
    have ih' := ih (fun h => hp (List.mem_cons_of_mem _ h))
    have hpq' : p ≠ (q.1, q.2) := by simpa using hpq
    rcases hq : rpc q with d | bq | bq | msg <;>
      simp [runSweepFirst, check_token_balance, hq, ih', ubm_balanceCurrent,
        ubm_balanceCheckTotal, getA_setA_ne _ _ _ _ hpq',
        lookA_bumpA_ne _ _ _ (key3_ne p q hpq _ _)]

theorem runSweepNormal_error_metrics (rpc : PairKey → RpcResult) (p : PairKey) (d : String)
    (hrp : rpc p = RpcResult.errDict d) :
    ∀ (ps : List PairKey), (∀ q ∈ ps, raisesB (rpc q) = false) → ps.Nodup → p ∈ ps →
      ∀ (st : Store) (ns : List Notif) (m : Metrics),
        getA (runSweepNormal rpc ps st ns m).metrics.balanceCurrent p = some 0 ∧
          lookA (runSweepNormal rpc ps st ns m).metrics.balanceCheckTotal (p.1, p.2, "error") =
            lookA m.balanceCheckTotal (p.1, p.2, "error") + 1 := by
  intro ps
  induction ps with
  | nil => intro _ _ hp; exact absurd hp (List.not_mem_nil p)
  | cons q rest ih =>
    intro hno hnd hp st ns m
    rw [List.nodup_cons] at hnd
    have hnor : ∀ r ∈ rest, raisesB (rpc r) = false :=
      fun r hr => hno r (List.mem_cons_of_mem _ hr)
    by_cases hpq : p = q
    · subst hpq
      have hframe := runSweepNormal_metrics_frame rpc p "error" rest hnd.1
      simp [runSweepNormal, check_token_balance, hrp, hframe, ubm_balanceCurrent,
        ubm_balanceCheckTotal, getA_setA_self, lookA_bumpA_self]
    · have hpr : p ∈ rest := (List.mem_cons.mp hp).resolve_left hpq
      have ih' := ih hnor hnd.2 hpr
      have hpq' : p ≠ (q.1, q.2) := by simpa using hpq
      have hq' := hno q (List.mem_cons_self _ _)
      rcases hq : rpc q with dq | bq | bq | msg
      · simp [runSweepNormal, check_token_balance, hq, ih', ubm_balanceCurrent,
          ubm_balanceCheckTotal, getA_setA_ne _ _ _ _ hpq',
          lookA_bumpA_ne _ _ _ (key3_ne p q hpq _ _)]
      · simp [runSweepNormal, check_token_balance, hq, ih', ubm_balanceCurrent,
          ubm_balanceCheckTotal, getA_setA_ne _ _ _ _ hpq',
          lookA_bumpA_ne _ _ _ (key3_ne p q hpq _ _)]
      · simp [runSweepNormal, check_token_balance, hq, ih', ubm_balanceCurrent,
          ubm_balanceCheckTotal, getA_setA_ne _ _ _ _ hpq',
          lookA_bumpA_ne _ _ _ (key3_ne p q hpq _ _)]
      · simp [raisesB, hq] at hq'

theorem runSweepFirst_error_metrics (rpc : PairKey → RpcResult) (p : PairKey) (d : String)
    (hrp : rpc p = RpcResult.errDict d) :
    ∀ (ps : List PairKey), (∀ q ∈ ps, raisesB (rpc q) = false) → ps.Nodup → p ∈ ps →
      ∀ (st : Store) (es : List String) (m : Metrics),
        getA (runSweepFirst rpc ps st es m).metrics.balanceCurrent p = some 0 ∧
          lookA (runSweepFirst rpc ps st es m).metrics.balanceCheckTotal (p.1, p.2, "error") =
            lookA m.balanceCheckTotal (p.1, p.2, "error") + 1 := by
  intro ps
  induction ps with
  | nil => intro _ _ hp; exact absurd hp (List.not_mem_nil p)
  | cons q rest ih =>
    intro hno hnd hp st es m
    rw [List.nodup_cons] at hnd
    have hnor : ∀ r ∈ rest, raisesB (rpc r) = false :=
      fun r hr => hno r (List.mem_cons_of_mem _ hr)
    by_cases hpq : p = q
    · subst hpq
      have hframe := runSweepFirst_metrics_frame rpc p "error" rest hnd.1
      simp [runSweepFirst, check_token_balance, hrp, hframe, ubm_balanceCurrent,
        ubm_balanceCheckTotal, getA_setA_self, lookA_bumpA_self]
    · have hpr : p ∈ rest := (List.mem_cons.mp hp).resolve_left hpq
      have ih' := ih hnor hnd.2 hpr
      have hpq' : p ≠ (q.1, q.2) := by simpa using hpq
      have hq' := hno q (List.mem_cons_self _ _)
      rcases hq : rpc q with dq | bq | bq | msg
      · simp [runSweepFirst, check_token_balance, hq, ih', ubm_balanceCurrent,
          ubm_balanceCheckTotal, getA_setA_ne _ _ _ _ hpq',
          lookA_bumpA_ne _ _ _ (key3_ne p q hpq _ _)]
      · simp [runSweepFirst, check_token_balance, hq, ih', ubm_balanceCurrent,
          ubm_balanceCheckTotal, getA_setA_ne _ _ _ _ hpq',
          lookA_bumpA_ne _ _ _ (key3_ne p q hpq _ _)]
      · simp [runSweepFirst, check_token_balance, hq, ih', ubm_balanceCurrent,
          ubm_balanceCheckTotal, getA_setA_ne _ _ _ _ hpq',
          lookA_bumpA_ne _ _ _ (key3_ne p q hpq _ _)]
      · simp [raisesB, hq] at hq'

theorem main_check_balanceCurrent (cfg : BotConfig) (rpc : PairKey → RpcResult)
    (st : Store) (m : Metrics) :
    (main_check cfg rpc st m).metrics.balanceCurrent =
      if st.isEmpty then (runSweepFirst rpc (sweepPairs cfg) st [] m).metrics.balanceCurrent
      else (runSweepNormal rpc (sweepPairs cfg) st [] m).metrics.balanceCurrent := by
  unfold main_check
  by_cases h : st.isEmpty <;>
    simp only [h, Bool.false_eq_true, if_true, if_false] <;>
    (repeat' split) <;>
    simp [record_error_balanceCurrent, rbcc_balanceCurrent]

theorem main_check_balanceCheckTotal (cfg : BotConfig) (rpc : PairKey → RpcResult)
    (st : Store) (m : Metrics) :
    (main_check cfg rpc st m).metrics.balanceCheckTotal =
      if st.isEmpty then (runSweepFirst rpc (sweepPairs cfg) st [] m).metrics.balanceCheckTotal
      else (runSweepNormal rpc (sweepPairs cfg) st [] m).metrics.balanceCheckTotal := by
  unfold main_check
  by_cases h : st.isEmpty <;>
    simp only [h, Bool.false_eq_true, if_true, if_false] <;>
    (repeat' split) <;>
    simp [record_error_balanceCheckTotal, rbcc_balanceCheckTotal]

/-- Claim C10: in any cycle with distinct sweep pairs and no cycle-aborting
client exception, a pair whose fetch returns an error-shaped outcome has its
current-balance gauge set to 0 and its per-pair balance-check counter
incremented under the error status, while the store keeps the stale balance
for the pair: the last successfully observed gauge value is overwritten by 0
even though previous_balances is untouched. -/
theorem C10_error_gauge_zero (cfg : BotConfig) (rpc : PairKey → RpcResult)
    (st : Store) (m : Metrics) (p : PairKey) (d : String)
    (hnd : (sweepPairs cfg).Nodup)
    (hno : ∀ q ∈ sweepPairs cfg, raisesB (rpc q) = false)
    (hp : p ∈ sweepPairs cfg)
    (herr : check_token_balance (rpc p) = Except.ok (CheckResult.errOutcome d)) :
    getA (main_check cfg rpc st m).metrics.balanceCurrent p = some 0 ∧
      lookA (main_check cfg rpc st m).metrics.balanceCheckTotal (p.1, p.2, "error") =
        lookA m.balanceCheckTotal (p.1, p.2, "error") + 1 ∧
      getA (main_check cfg rpc st m).store p = getA st p := by
  have hrp : rpc p = RpcResult.errDict d := by
    rcases hq : rpc p with d' | b | b | msg
    · rw [hq] at herr
      simp only [check_token_balance, Except.ok.injEq, CheckResult.errOutcome.injEq] at herr
      rw [herr]
    · rw [hq] at herr; simp [check_token_balance] at herr
    · rw [hq] at herr; simp [check_token_balance] at herr
    · rw [hq] at herr; simp [check_token_balance] at herr
  have hns : successOf (rpc p) = none := by
    unfold successOf
    rw [herr]
  refine ⟨?_, ?_, ?_⟩
  · rw [main_check_balanceCurrent]
    by_cases h : st.isEmpty <;> simp only [h, Bool.false_eq_true, if_true, if_false]
    · exact (runSweepFirst_error_metrics rpc p d hrp _ hno hnd hp st [] m).1
    · exact (runSweepNormal_error_metrics rpc p d hrp _ hno hnd hp st [] m).1
  · rw [main_check_balanceCheckTotal]
    by_cases h : st.isEmpty <;> simp only [h, Bool.false_eq_true, if_true, if_false]
    · exact (runSweepFirst_error_metrics rpc p d hrp _ hno hnd hp st [] m).2
    · exact (runSweepNormal_error_metrics rpc p d hrp _ hno hnd hp st [] m).2
  · rw [main_check_store]
    by_cases h : st.isEmpty <;> simp only [h, Bool.false_eq_true, if_true, if_false]
    · exact runSweepFirst_store_noSuccess rpc p hns _ st [] m
    · exact runSweepNormal_store_noSuccess rpc p hns _ st [] m

/-- Witness for C10 at a concrete input: one pair with a stored balance and
an error-shaped fetch; the gauge reads 0, the error counter reads 1, the
store still holds the old balance. -/
theorem C10_witness :
    getA (main_check cfgW rpcErrW stW initMetrics).metrics.balanceCurrent ("A", "ETH") =
        some 0 ∧
      lookA (main_check cfgW rpcErrW stW initMetrics).metrics.balanceCheckTotal
          ("A", "ETH", "error") =
        lookA initMetrics.balanceCheckTotal ("A", "ETH", "error") + 1 ∧
      getA (main_check cfgW rpcErrW stW initMetrics).store ("A", "ETH") =
        getA stW ("A", "ETH") :=
  C10_error_gauge_zero cfgW rpcErrW stW initMetrics ("A", "ETH") "boom"
    (by decide) (by decide) (by decide) rfl

/-- Claim C6: for every duplicate-free state of the health-flag mapping, the
health endpoint returns status 200 exactly when every flag is true and 500
otherwise; the body carries every flag by name plus the timestamp; setting
any present flag to false forces status 500, and setting it back to true
while all other flags are true restores status 200. -/
theorem C6_health_endpoint (status : List (String × Bool)) (ts nm : String)
    (hnd : (status.map Prod.fst).Nodup) :
    ((healthcheck status ts).2 = 200 ↔ ∀ kv ∈ status, kv.2 = true) ∧
      (healthcheck status ts).1.flags = status ∧
      (healthcheck status ts).1.timestamp = ts ∧
      (nm ∈ status.map Prod.fst → (healthcheck (setA status nm false) ts).2 = 500) ∧
      ((∀ kv ∈ status, kv.1 ≠ nm → kv.2 = true) →
        (healthcheck (setA status nm true) ts).2 = 200) := by
  refine ⟨?_, rfl, rfl, ?_, ?_⟩
  · by_cases hall : status.all (fun kv => kv.2) = true
    · rw [List.all_eq_true] at hall
      simp [healthcheck, List.all_eq_true, hall]
    · have h5 : (healthcheck status ts).2 = 500 := by
        simp [healthcheck, Bool.eq_false_iff.mpr hall]
      rw [List.all_eq_true] at hall
      rw [h5]
      exact ⟨fun h => absurd h (by decide), fun h => absurd h hall⟩
  · intro _
    have hmem := setA_mem_self status nm false
    have hall : ¬((setA status nm false).all (fun kv => kv.2) = true) := by
      rw [List.all_eq_true]
      intro hal
      exact absurd (hal (nm, false) hmem) (by simp)
    simp [healthcheck, Bool.eq_false_iff.mpr hall]
  · intro hrest
    have hall : (setA status nm true).all (fun kv => kv.2) = true := by
      rw [List.all_eq_true]
      intro kv hkv
      rcases mem_setA_nodup status nm true hnd kv hkv with h | h
      · rw [h]
      · exact hrest kv h.1 h.2
    simp [healthcheck, hall]

/-- Witness for C6 at a concrete input: the three-flag mapping of main.py,
all healthy, then with eth_rpc_status flipped false, then flipped back. -/
theorem C6_witness :
    (healthcheck statusW "t").2 = 200 ∧
      (healthcheck (setA statusW "eth_rpc_status" false) "t").2 = 500 ∧
      (healthcheck (setA (setA statusW "eth_rpc_status" false) "eth_rpc_status" true) "t").2 =
        200 := by
  refine ⟨?_, ?_, ?_⟩
  · exact (C6_health_endpoint statusW "t" "eth_rpc_status" (by decide)).1.mpr (by decide)
  · exact (C6_health_endpoint statusW "t" "eth_rpc_status" (by decide)).2.2.2.1 (by decide)
  · exact (C6_health_endpoint (setA statusW "eth_rpc_status" false) "t" "eth_rpc_status"
      (by decide)).2.2.2.2 (by decide)

/-- Claim C8: a notification attempt is classified delivered exactly when the
transport response carries the acknowledgement field ok equal to true; a
transport-level success whose response carries anything else (an
application-level rejection) is classified failed, and a transport exception
is classified failed rather than propagated (send_notification is total and
never yields an exception). -/
theorem C8_delivered_iff_ok (r : TelegramResponse) :
    (send_notification r = true ↔ ∃ dsc, r = TelegramResponse.response (some true) dsc) ∧
      (∀ msg, r = TelegramResponse.raises msg → send_notification r = false) := by
  constructor
  · cases r with
    | response ok dsc =>
      by_cases hok : ok = some true
      · subst hok
        have hsend : send_notification (TelegramResponse.response (some true) dsc) = true := rfl
        rw [hsend]
        exact ⟨fun _ => ⟨dsc, rfl⟩, fun _ => rfl⟩
      · simp [send_notification, hok]
    | raises msg => simp [send_notification]
  · intro msg h
    subst h
    rfl

/-- Witness for C8 at concrete inputs: an ok-true response is delivered, an
ok-false response is failed, a raising transport is failed. -/
theorem C8_witness :
    send_notification (TelegramResponse.response (some true) none) = true ∧
      send_notification (TelegramResponse.response (some false) (some "bad")) = false ∧
      send_notification (TelegramResponse.raises "down") = false := by
  refine ⟨(C8_delivered_iff_ok _).1.mpr ⟨none, rfl⟩, ?_,
    (C8_delivered_iff_ok _).2 "down" rfl⟩
  have h := (C8_delivered_iff_ok (TelegramResponse.response (some false) (some "bad"))).1
  rw [Bool.eq_false_iff]
  intro ht
  rcases h.mp ht with ⟨dsc, hd⟩
  simp at hd

/-- Counterexample to claim C4 as stated: a raising ledger client makes
check_token_balance propagate the exception instead of returning an
error-shaped outcome, and on a non-first cycle the raised exception aborts
the sweep, so the remaining pair (A, USDT) is never fetched or stored. -/
theorem C4_counterexample :
    check_token_balance (RpcResult.raises "timeout") = Except.error "timeout" ∧
      (main_check cfgW2 rpcRaisesW stW initMetrics).result = Except.error "timeout" ∧
      getA (main_check cfgW2 rpcRaisesW stW initMetrics).store ("A", "USDT") = none :=
  ⟨rfl, rfl, rfl⟩

/-- Claim C4 as amended: check_token_balance returns an error-shaped outcome
for an error-shaped client result and a balance for a successful one, but a
client exception is re-raised to the caller (aborting the sweep of the
cycle); only error-shaped results are isolated per pair. -/
theorem C4_amended_fetch_outcomes (d msg : String) (b : Balance) :
    check_token_balance (RpcResult.errDict d) = Except.ok (CheckResult.errOutcome d) ∧
      check_token_balance (RpcResult.balDict b) = Except.ok (CheckResult.balance b) ∧
      check_token_balance (RpcResult.plain b) = Except.ok (CheckResult.balance b) ∧
      check_token_balance (RpcResult.raises msg) = Except.error msg :=
  ⟨rfl, rfl, rfl, rfl⟩
